import Mathlib

/-!
Shallow embedding of `Challenge_Python_Inmar.py`: a CSV data-quality
pipeline with a processed-file ledger, a file admission gate, a row
validation/cleaning engine, an output partitioner and an orchestrator.

Cell values are `Option String` (`none` models a null/NaN cell; every
cell the rules touch is taken through Python `str`, so string-typed
cells are the faithful model).  Character classes (`str.isdigit`,
regex `\w`, `\s`) are modelled with their ASCII semantics, which is
what the data and all claims are about.
-/

namespace Inmar

/-- A cell value; `none` models a null/NaN cell. -/
abbrev Value := Option String

/-- One input row over the five fixed columns of the input schema. -/
structure RawRow where
  name : Value
  phone : Value
  location : Value
  address : Value
  reviews_list : Value
deriving DecidableEq

/-- A row after `data_quality_check_module`: the raw fields (with
`phone`, `address`, `reviews_list` overwritten by their cleaned forms)
plus the two derived columns `is_bad` and `issue_type`. -/
structure AnnotatedRow extends RawRow where
  is_bad : Bool
  issue_type : String
deriving DecidableEq

/-- One line of `processed_files.csv`. -/
structure LedgerRecord where
  file_name : String
  processed_date : String
deriving DecidableEq

/-- An in-memory table as loaded by `pd.read_csv`: the list of column
names present in the header, and the rows (projected onto the five
fixed fields; a field is only meaningful when its column is present,
which `data_quality_check_module` checks before touching it). -/
structure Table where
  cols : List String
  rows : List RawRow
deriving DecidableEq

/-- A candidate input file: its path, its byte size
(`os.path.getsize`), and the table `pd.read_csv` would produce —
`none` models a read failure (malformed/unreadable CSV). -/
structure InputFile where
  path : String
  size : Nat
  content : Option Table
deriving DecidableEq

/-- Outcome of the admission gate `file_check_module`.  The code logs a
distinct warning per skip reason and returns `False`; the constructors
record which branch fired. -/
inductive AdmissionResult where
  | Accepted
  | SkipAlreadyProcessed
  | SkipEmpty
  | SkipInvalidExtension
deriving DecidableEq

/-- An output artifact of `write_output_files`: the clean file (path
embeds the base name and a timestamp, `is_bad`/`issue_type` dropped)
or the bad file (path embeds only the base name). -/
inductive Artifact where
  | clean (base ts : String) (rows : List RawRow)
  | bad (base : String) (rows : List AnnotatedRow)
deriving DecidableEq

/-- Observable pipeline events, in order: an artifact write, or a
ledger record append (`save_processed_files`). -/
inductive Event where
  | wrote (a : Artifact)
  | recorded (file_name : String)
deriving DecidableEq

/-- The durable state the pipeline touches: the ledger file and the
set of written output artifacts (as an append log). -/
structure PipelineState where
  ledger : List LedgerRecord
  outputs : List Artifact
deriving DecidableEq

/-- Result of running (part of) the orchestrator: final state, the
trace of write/record events, and whether an uncaught exception
terminated the run. -/
structure RunResult where
  state : PipelineState
  events : List Event
  fatal : Bool
deriving DecidableEq

/-- Python `str.replace(c, '')` for a one-character pattern: removes
every occurrence of that character. -/
def removeChar (c : Char) (s : String) : String :=
  ⟨s.data.filter (fun x => x != c)⟩

/-- `str(phone).replace('+', '').replace(' ', '')` (line 73). -/
def normalize_phone (s : String) : String :=
  removeChar ' ' (removeChar '+' s)

/-- `len(phone) == 10 and phone.isdigit()` (line 74). -/
def valid_phone (s : String) : Bool :=
  s.length == 10 && s.data.all Char.isDigit

/-- `os.path.basename`: the part of the path after the last slash. -/
def basename (p : String) : String :=
  ⟨(p.data.reverse.takeWhile (fun c => c != '/')).reverse⟩

/-- The base of `os.path.splitext`: everything before the last dot
(for file names that have an extension; a dotless name is returned
unchanged). -/
def splitext_base (s : String) : String :=
  if s.data.contains '.' then ⟨((s.data.reverse.dropWhile (fun c => c != '.')).drop 1).reverse⟩
  else s

/-- The character class of the regex `\s` (ASCII whitespace). -/
def is_py_space (c : Char) : Bool :=
  c == ' ' || c == '\t' || c == '\n' || c == '\r' || c == '\x0b' || c == '\x0c'

/-- The character class of the regex `\w` (ASCII): alphanumeric or
underscore. -/
def is_word_char (c : Char) : Bool :=
  c.isAlphanum || c == '_'

/-- `clean_and_validate_phone` (lines 70-76): `None` for a null cell;
otherwise remove `+` and spaces, keep the result iff it is ten
characters all digits, else the sentinel `"invalid"`. -/
def clean_and_validate_phone (phone : Value) : Value :=
  match phone with
  | none => none
  | some s =>
    let p := normalize_phone s
    if valid_phone p then some p else some "invalid"

/-- `clean_descriptive_field` (lines 95-99): `None` for a null cell;
otherwise `re.sub(r'[^\w\s,]', '', text)` — keep exactly the `\w`
characters, the `\s` characters and the comma, in order. -/
def clean_descriptive_field (v : Value) : Value :=
  match v with
  | none => none
  | some s => some ⟨s.data.filter (fun c => is_word_char c || is_py_space c || c == ',')⟩

/-- Modelled from the spec: the descriptive-field rule as the spec
words it — "strip every character that is not alphanumeric, a space,
or a comma".  Stated only to be compared with
`clean_descriptive_field`, which is translated from the source. -/
def clean_descriptive_field_spec (v : Value) : Value :=
  match v with
  | none => none
  | some s => some ⟨s.data.filter (fun c => c.isAlphanum || c == ' ' || c == ',')⟩

/-- The per-row effect of `data_quality_check_module` (lines 61-104).
The pandas code works column-wise with masks, but every mask and every
update is a function of the row alone, so the row-level reading is
exact: initialize `is_bad := False`, `issue_type := ''`; clean the
phone; flag `invalid_phone;` where the cleaned phone is the sentinel;
overwrite `phone` with the cleaned value; flag `null_name;`,
`null_phone;`, `null_location;` for null required fields (phone
checked on the already-cleaned value); sanitize the descriptive
fields.  `issue_type` accumulates with `+=` in exactly this order. -/
def annotate_row (r : RawRow) : AnnotatedRow :=
  let pc := clean_and_validate_phone r.phone
  let phone_issue := pc == some "invalid"
  let name_null := r.name.isNone
  let phone_null := pc.isNone
  let location_null := r.location.isNone
  { name := r.name
    phone := pc
    location := r.location
    address := clean_descriptive_field r.address
    reviews_list := clean_descriptive_field r.reviews_list
    is_bad := phone_issue || name_null || phone_null || location_null
    issue_type :=
      (if phone_issue then "invalid_phone;" else "") ++
      (if name_null then "null_name;" else "") ++
      (if phone_null then "null_phone;" else "") ++
      (if location_null then "null_location;" else "") }

/-- The columns `data_quality_check_module` reads (`df['phone']`,
`df['name']`, `df['location']`, `df['address']`,
`df['reviews_list']`).  A missing one raises a `KeyError`. -/
def required_columns : List String :=
  ["name", "phone", "location", "address", "reviews_list"]

/-- `data_quality_check_module` on a whole table: a `KeyError` (as
`Except.error`) if a required column is absent, otherwise the
annotated rows. -/
def data_quality_check_module (t : Table) : Except String (List AnnotatedRow) :=
  if required_columns.all (fun c => t.cols.contains c) then
    Except.ok (t.rows.map annotate_row)
  else
    Except.error "KeyError: missing required column"

/-- `load_processed_files` (lines 13-19): the set of file names in the
ledger (membership is all the callers use, so the list of names is the
faithful model; an absent ledger file is the empty list). -/
def load_processed_files (L : List LedgerRecord) : List String :=
  L.map LedgerRecord.file_name

/-- `save_processed_files` (lines 22-34): read the ledger, concatenate
one new record (file name, current date), write it back.  No
deduplication of any kind. -/
def save_processed_files (L : List LedgerRecord) (file_name ts : String) : List LedgerRecord :=
  L ++ [⟨file_name, ts⟩]

/-- `file_check_module` (lines 38-59): skip if the base name is in the
ledger, else skip if the byte size is zero, else skip if the full path
does not end in `.csv`, else accept. -/
def file_check_module (processed_files : List String) (f : InputFile) : AdmissionResult :=
  if processed_files.contains (basename f.path) then AdmissionResult.SkipAlreadyProcessed
  else if f.size = 0 then AdmissionResult.SkipEmpty
  else if (".csv".data.isSuffixOf f.path.data) = false then AdmissionResult.SkipInvalidExtension
  else AdmissionResult.Accepted

/-- `write_output_files` (lines 108-129): always write the clean file
(bad rows removed, `is_bad`/`issue_type` columns dropped, path embeds
base name and timestamp); write the bad file (path embeds only the
base name) only when at least one bad row exists. -/
def write_output_files (rows : List AnnotatedRow) (base ts : String) : List Artifact :=
  let clean_records := (rows.filter (fun r => !r.is_bad)).map AnnotatedRow.toRawRow
  let bad_records := rows.filter (fun r => r.is_bad)
  Artifact.clean base ts clean_records ::
    (if bad_records.isEmpty then [] else [Artifact.bad base bad_records])

/-- The body of `main`'s per-file loop (lines 138-157): run the gate;
if accepted, read the file (a read failure is caught and the loop
continues); run `data_quality_check_module` — this call sits OUTSIDE
the try/except, so a `KeyError` there is an uncaught exception that
terminates the whole run (`fatal := true`); otherwise write the
artifacts and only then append the ledger record. -/
def process_file (st : PipelineState) (ts : String) (f : InputFile) : RunResult :=
  if file_check_module (load_processed_files st.ledger) f = AdmissionResult.Accepted then
    match f.content with
    | none => ⟨st, [], false⟩
    | some t =>
      match data_quality_check_module t with
      | Except.error _ => ⟨st, [], true⟩
      | Except.ok rows =>
        let file_name := basename f.path
        let arts := write_output_files rows (splitext_base file_name) ts
        ⟨⟨save_processed_files st.ledger file_name ts, st.outputs ++ arts⟩,
          arts.map Event.wrote ++ [Event.recorded file_name], false⟩
  else ⟨st, [], false⟩

/-- `main` (lines 133-159) over the discovered candidate files: process
each in turn; an uncaught exception stops the loop at that file. -/
def run_pipeline (ts : String) : List InputFile → PipelineState → RunResult
  | [], st => ⟨st, [], false⟩
  | f :: fs, st =>
    let r := process_file st ts f
    if r.fatal then ⟨r.state, r.events, true⟩
    else
      let r2 := run_pipeline ts fs r.state
      ⟨r2.state, r.events ++ r2.events, r2.fatal⟩

/-- The base name a written artifact's path embeds (the clean file's
path also embeds a timestamp; the bad file's path only the base). -/
def artifact_base : Artifact → String
  | Artifact.clean b _ _ => b
  | Artifact.bad b _ => b

/-- Temporal ordering of a trace: wherever a `recorded n` event occurs,
the write events of ALL artifacts `write_output_files` produced for
that file — the clean artifact and, when bad rows exist, the bad
artifact — sit immediately before the record, and no artifact whose
path embeds that file's base name is written anywhere after the
record. -/
def RecordsAfterAllWrites (ev : List Event) : Prop :=
  ∀ (n : String) (pre suf : List Event), ev = pre ++ Event.recorded n :: suf →
    (∃ (pre0 : List Event) (ts2 : String) (rows : List AnnotatedRow),
        pre = pre0 ++ (write_output_files rows (splitext_base n) ts2).map Event.wrote) ∧
    (∀ a : Artifact, Event.wrote a ∈ suf → artifact_base a ≠ splitext_base n)

/-- The flag and the accumulated tag string are driven by the same
four per-row conditions, so the flag is set exactly when some tag was
appended. -/
lemma bad_iff_issue (b1 b2 b3 b4 : Bool) :
    (b1 || b2 || b3 || b4) = true ↔
      ((if b1 then "invalid_phone;" else "") ++ (if b2 then "null_name;" else "") ++
       (if b3 then "null_phone;" else "") ++ (if b4 then "null_location;" else "")) ≠ "" := by
  cases b1 <;> cases b2 <;> cases b3 <;> cases b4 <;> decide

lemma annotate_bad_iff (r : RawRow) :
    ((annotate_row r).is_bad = true) ↔ (annotate_row r).issue_type ≠ "" :=
  bad_iff_issue (clean_and_validate_phone r.phone == some "invalid") r.name.isNone
    (clean_and_validate_phone r.phone).isNone r.location.isNone

/-- C1: for every input table and every row of the annotated output of
the validation engine, `is_bad` is true if and only if `issue_type` is
a non-empty string. -/
theorem is_bad_iff_issue_nonempty (t : Table) (out : List AnnotatedRow)
    (h : data_quality_check_module t = Except.ok out) :
    ∀ r ∈ out, (r.is_bad = true ↔ r.issue_type ≠ "") := by
  unfold data_quality_check_module at h
  split at h
  · simp only [Except.ok.injEq] at h
    subst h
    intro r hr
    rcases List.mem_map.mp hr with ⟨x, _, rfl⟩
    exact annotate_bad_iff x
  · simp at h

/-- C1 witness: the invariant evaluated on a concrete table whose one
row has a null name and a malformed phone. -/
theorem is_bad_iff_issue_nonempty_witness :
    ((annotate_row ⟨none, some "12345", some "l", none, none⟩).is_bad = true ↔
      (annotate_row ⟨none, some "12345", some "l", none, none⟩).issue_type ≠ "") :=
  is_bad_iff_issue_nonempty ⟨required_columns, [⟨none, some "12345", some "l", none, none⟩]⟩
    [annotate_row ⟨none, some "12345", some "l", none, none⟩] rfl
    (annotate_row ⟨none, some "12345", some "l", none, none⟩) (by decide)

/-- C5 counterexample: the claim says the rule strips exactly the
characters that are not alphanumeric, a space, or a comma — but the
source regex `[^\w\s,]` keeps the underscore (`\w`), so on `"a_b"` the
code and the claim's rule disagree. -/
theorem clean_descriptive_cex :
    clean_descriptive_field (some "a_b") = some "a_b" ∧
    clean_descriptive_field_spec (some "a_b") = some "ab" ∧
    clean_descriptive_field (some "a_b") ≠ clean_descriptive_field_spec (some "a_b") :=
  ⟨by decide, by decide, by decide⟩

/-- C5 amended: for every non-null value, the rule strips exactly
those characters that are not alphanumeric, an underscore, a `\s`
whitespace character, or a comma, preserving all other characters and
their order (the output is a sublist of the input); null values pass
through unchanged. -/
theorem clean_descriptive_amended :
    (∀ s : String, ∃ t : String,
        clean_descriptive_field (some s) = some t ∧
        t.data = s.data.filter (fun c => c.isAlphanum || c == '_' || is_py_space c || c == ',') ∧
        t.data.Sublist s.data) ∧
    clean_descriptive_field none = none := by
  constructor
  · intro s
    refine ⟨⟨s.data.filter (fun c => is_word_char c || is_py_space c || c == ',')⟩, rfl, ?_, ?_⟩
    · exact List.filter_congr (fun c _ => by
        cases h1 : c.isAlphanum <;> cases h2 : (c == '_') <;> cases h3 : is_py_space c <;>
          cases h4 : (c == ',') <;> simp [is_word_char, h1, h2, h3, h4])
    · exact List.filter_sublist s.data
  · rfl

/-- C6: the admission gate checks the three predicates in fixed order
and reports the first that matches — ledger membership of the base
name first (with no condition on size or extension), then zero byte
size (regardless of extension), then the `.csv` suffix of the path;
otherwise the file is accepted. -/
theorem file_check_order (L : List String) (f : InputFile) :
    (basename f.path ∈ L →
        file_check_module L f = AdmissionResult.SkipAlreadyProcessed) ∧
    (basename f.path ∉ L → f.size = 0 →
        file_check_module L f = AdmissionResult.SkipEmpty) ∧
    (basename f.path ∉ L → f.size ≠ 0 →
        (".csv".data.isSuffixOf f.path.data) = false →
        file_check_module L f = AdmissionResult.SkipInvalidExtension) ∧
    (basename f.path ∉ L → f.size ≠ 0 →
        (".csv".data.isSuffixOf f.path.data) = true →
        file_check_module L f = AdmissionResult.Accepted) := by
  refine ⟨?_, ?_, ?_, ?_⟩
  · intro h1
    simp [file_check_module, h1]
  · intro h1 h2
    simp [file_check_module, h1, h2]
  · intro h1 h2 h3
    simp [file_check_module, h1, h2, h3]
  · intro h1 h2 h3
    simp [file_check_module, h1, h2, h3]

/-- C6 witness: the four gate outcomes on concrete files — note the
`SkipEmpty` case fires on a zero-size file with a non-`.csv`
extension. -/
theorem file_check_order_witness :
    file_check_module ["a.csv"] ⟨"d/a.csv", 0, none⟩ = AdmissionResult.SkipAlreadyProcessed ∧
    file_check_module [] ⟨"d/b.txt", 0, none⟩ = AdmissionResult.SkipEmpty ∧
    file_check_module [] ⟨"d/b.txt", 5, none⟩ = AdmissionResult.SkipInvalidExtension ∧
    file_check_module [] ⟨"d/a.csv", 5, none⟩ = AdmissionResult.Accepted :=
  ⟨(file_check_order ["a.csv"] ⟨"d/a.csv", 0, none⟩).1 (by decide),
   (file_check_order [] ⟨"d/b.txt", 0, none⟩).2.1 (by decide) rfl,
   (file_check_order [] ⟨"d/b.txt", 5, none⟩).2.2.1 (by decide) (by decide) (by decide),
   (file_check_order [] ⟨"d/a.csv", 5, none⟩).2.2.2 (by decide) (by decide) (by decide)⟩

/-- C2: for every non-null phone value, the rule removes all literal
`+` and space characters (the normalized value is the filter of the
original); the result is kept iff it is exactly 10 characters, all
decimal digits; otherwise the cleaned value is the sentinel
`"invalid"`, the row is flagged and `invalid_phone;` is appended to
(in fact starts) `issue_type`; and `"555 123 4567"` cleans to
`"5551234567"` without being flagged by the phone rule. -/
theorem phone_rule_spec :
    (∀ s : String, (normalize_phone s).data = s.data.filter (fun c => !(c == '+' || c == ' '))) ∧
    (∀ s : String, valid_phone s = true ↔ s.length = 10 ∧ ∀ c ∈ s.data, c.isDigit = true) ∧
    (∀ s : String, valid_phone (normalize_phone s) = true →
        clean_and_validate_phone (some s) = some (normalize_phone s)) ∧
    (∀ s : String, valid_phone (normalize_phone s) = false →
        clean_and_validate_phone (some s) = some "invalid" ∧
        ∀ r : RawRow, r.phone = some s →
          (annotate_row r).phone = some "invalid" ∧
          (annotate_row r).is_bad = true ∧
          "invalid_phone;".data <+: (annotate_row r).issue_type.data) ∧
    (clean_and_validate_phone (some "555 123 4567") = some "5551234567" ∧
      ∀ r : RawRow, r.phone = some "555 123 4567" →
        (annotate_row r).phone = some "5551234567" ∧
        ¬ ("invalid_phone;".data <:+: (annotate_row r).issue_type.data)) := by
  refine ⟨?_, ?_, ?_, ?_, ?_, ?_⟩
  · intro s
    show List.filter _ (List.filter _ s.data) = _
    rw [List.filter_filter]
    exact List.filter_congr (fun c _ => by
      simp only [bne]
      cases h1 : (c == '+') <;> cases h2 : (c == ' ') <;> rfl)
  · intro s
    simp [valid_phone, List.all_eq_true]
  · intro s h
    simp [clean_and_validate_phone, h]
  · intro s h
    have hc : clean_and_validate_phone (some s) = some "invalid" := by
      simp [clean_and_validate_phone, h]
    refine ⟨hc, ?_⟩
    intro r hr
    have hpc : clean_and_validate_phone r.phone = some "invalid" := by rw [hr]; exact hc
    refine ⟨hpc, by simp [annotate_row, hpc], ?_⟩
    simp [annotate_row, hpc, String.data_append, List.append_assoc]
  · decide
  · intro r hr
    have hpc : clean_and_validate_phone r.phone = some "5551234567" := by rw [hr]; decide
    refine ⟨hpc, ?_⟩
    cases hn : r.name <;> cases hl : r.location <;> simp [annotate_row, hpc, hn, hl] <;> decide

/-- C2 witness: the implicative parts of `phone_rule_spec` discharged
at a valid ten-digit phone, at the malformed `"12345"`, and at a row
carrying the example phone `"555 123 4567"`. -/
theorem phone_rule_spec_witness :
    clean_and_validate_phone (some "5551234567") = some (normalize_phone "5551234567") ∧
    clean_and_validate_phone (some "12345") = some "invalid" ∧
    ((annotate_row ⟨some "n", some "555 123 4567", some "l", none, none⟩).phone = some "5551234567" ∧
      ¬ ("invalid_phone;".data <:+:
          (annotate_row ⟨some "n", some "555 123 4567", some "l", none, none⟩).issue_type.data)) :=
  ⟨phone_rule_spec.2.2.1 "5551234567" (by decide),
   (phone_rule_spec.2.2.2.1 "12345" (by decide)).1,
   phone_rule_spec.2.2.2.2.2 ⟨some "n", some "555 123 4567", some "l", none, none⟩ rfl⟩

/-- C3: because the required-field null check on phone runs against
the already-cleaned value, a malformed non-null phone yields
`invalid_phone;` and never `null_phone;` (the sentinel is non-null),
while a genuinely missing phone yields `null_phone;` and never
`invalid_phone;`. -/
theorem phone_tags_exclusive :
    (∀ (r : RawRow) (s : String), r.phone = some s →
        clean_and_validate_phone (some s) = some "invalid" →
        ("invalid_phone;".data <:+: (annotate_row r).issue_type.data ∧
         ¬ ("null_phone;".data <:+: (annotate_row r).issue_type.data))) ∧
    (∀ r : RawRow, r.phone = none →
        ("null_phone;".data <:+: (annotate_row r).issue_type.data ∧
         ¬ ("invalid_phone;".data <:+: (annotate_row r).issue_type.data))) := by
  constructor
  · intro r s hr hc
    have hpc : clean_and_validate_phone r.phone = some "invalid" := by rw [hr]; exact hc
    cases hn : r.name <;> cases hl : r.location <;> simp [annotate_row, hpc, hn, hl] <;> decide
  · intro r hr
    have hpc : clean_and_validate_phone r.phone = none := by rw [hr]; rfl
    cases hn : r.name <;> cases hl : r.location <;> simp [annotate_row, hpc, hn, hl] <;> decide

/-- C3 witness: the tag exclusivity evaluated on a row with the
malformed phone `"12345"` and on a row with a null phone. -/
theorem phone_tags_exclusive_witness :
    ("invalid_phone;".data <:+:
        (annotate_row ⟨some "n", some "12345", some "l", none, none⟩).issue_type.data ∧
     ¬ ("null_phone;".data <:+:
        (annotate_row ⟨some "n", some "12345", some "l", none, none⟩).issue_type.data)) ∧
    ("null_phone;".data <:+:
        (annotate_row ⟨some "n", none, some "l", none, none⟩).issue_type.data ∧
     ¬ ("invalid_phone;".data <:+:
        (annotate_row ⟨some "n", none, some "l", none, none⟩).issue_type.data)) :=
  ⟨phone_tags_exclusive.1 ⟨some "n", some "12345", some "l", none, none⟩ "12345" rfl (by decide),
   phone_tags_exclusive.2 ⟨some "n", none, some "l", none, none⟩ rfl⟩

/-- C4: a missing/null phone is normalized to the null marker (`None`,
which the spec calls "no value provided"), a value distinct from the
sentinel `"invalid"`; the phone rule alone neither flags such a row
(its mask is false) nor appends `invalid_phone;`. -/
theorem null_phone_passthrough :
    clean_and_validate_phone none = none ∧
    (none : Value) ≠ some "invalid" ∧
    (∀ r : RawRow, r.phone = none →
        (annotate_row r).phone = none ∧
        (clean_and_validate_phone r.phone == some "invalid") = false ∧
        ¬ ("invalid_phone;".data <:+: (annotate_row r).issue_type.data)) := by
  refine ⟨rfl, by decide, ?_⟩
  intro r hr
  have hpc : clean_and_validate_phone r.phone = none := by rw [hr]; rfl
  refine ⟨hpc, by simp [hpc], ?_⟩
  cases hn : r.name <;> cases hl : r.location <;> simp [annotate_row, hpc, hn, hl] <;> decide

/-- C4 witness: the null-phone behaviour evaluated on a concrete row
whose other required fields are present. -/
theorem null_phone_passthrough_witness :
    (annotate_row ⟨some "n", none, some "l", none, none⟩).phone = none ∧
    (clean_and_validate_phone (⟨some "n", none, some "l", none, none⟩ : RawRow).phone ==
        some "invalid") = false ∧
    ¬ ("invalid_phone;".data <:+:
        (annotate_row ⟨some "n", none, some "l", none, none⟩).issue_type.data) :=
  null_phone_passthrough.2.2 ⟨some "n", none, some "l", none, none⟩ rfl

/-- The gate accepts exactly when none of the three skip conditions
holds. -/
lemma accepted_iff (L : List String) (f : InputFile) :
    file_check_module L f = AdmissionResult.Accepted ↔
      (basename f.path ∉ L ∧ f.size ≠ 0 ∧ (".csv".data.isSuffixOf f.path.data) = true) := by
  unfold file_check_module
  split_ifs with h1 h2 h3 <;> simp_all

/-- The four mutually exclusive outcomes of one iteration of `main`'s
loop: skipped by the gate, read failure, uncaught schema error, or
fully processed (write artifacts, then append the ledger record). -/
lemma process_file_classify (st : PipelineState) (ts : String) (f : InputFile) :
    (file_check_module (load_processed_files st.ledger) f ≠ AdmissionResult.Accepted ∧
      process_file st ts f = ⟨st, [], false⟩) ∨
    (file_check_module (load_processed_files st.ledger) f = AdmissionResult.Accepted ∧
      f.content = none ∧ process_file st ts f = ⟨st, [], false⟩) ∨
    (∃ t e, file_check_module (load_processed_files st.ledger) f = AdmissionResult.Accepted ∧
      f.content = some t ∧ data_quality_check_module t = Except.error e ∧
      process_file st ts f = ⟨st, [], true⟩) ∨
    (∃ t rows, file_check_module (load_processed_files st.ledger) f = AdmissionResult.Accepted ∧
      f.content = some t ∧ data_quality_check_module t = Except.ok rows ∧
      process_file st ts f =
        ⟨⟨st.ledger ++ [⟨basename f.path, ts⟩],
          st.outputs ++ write_output_files rows (splitext_base (basename f.path)) ts⟩,
         (write_output_files rows (splitext_base (basename f.path)) ts).map Event.wrote ++
           [Event.recorded (basename f.path)], false⟩) := by
  by_cases hA : file_check_module (load_processed_files st.ledger) f = AdmissionResult.Accepted
  · cases hc : f.content with
    | none => exact Or.inr (Or.inl ⟨hA, rfl, by simp [process_file, hA, hc]⟩)
    | some t =>
      cases hd : data_quality_check_module t with
      | error e =>
        exact Or.inr (Or.inr (Or.inl ⟨t, e, hA, rfl, hd, by simp [process_file, hA, hc, hd]⟩))
      | ok rows =>
        exact Or.inr (Or.inr (Or.inr ⟨t, rows, hA, rfl, hd,
          by simp [process_file, hA, hc, hd, save_processed_files]⟩))
  · exact Or.inl ⟨hA, by simp [process_file, hA]⟩

/-- A file whose read fails changes nothing: the `try/except` catches
it and the loop continues, with no artifact and no ledger record. -/
lemma process_content_none (st : PipelineState) (ts : String) (f : InputFile)
    (h : f.content = none) : process_file st ts f = ⟨st, [], false⟩ := by
  by_cases hA : file_check_module (load_processed_files st.ledger) f = AdmissionResult.Accepted
  · simp [process_file, hA, h]
  · simp [process_file, hA]

/-- A fatal (schema-error) step leaves the state untouched and is
fatal again from any state with the same ledger, whatever the
timestamp. -/
lemma fatal_indep (st st2 : PipelineState) (ts ts2 : String) (f : InputFile)
    (h : (process_file st ts f).fatal = true) (hl : st2.ledger = st.ledger) :
    process_file st2 ts2 f = ⟨st2, [], true⟩ := by
  rcases process_file_classify st ts f with ⟨_, he⟩ | ⟨_, _, he⟩ | ⟨t, e, hA, hc, hd, _⟩ |
    ⟨t, rows, _, _, _, he⟩
  · rw [he] at h; simp at h
  · rw [he] at h; simp at h
  · have hA2 : file_check_module (load_processed_files st2.ledger) f = AdmissionResult.Accepted := by
      rw [hl]; exact hA
    simp [process_file, hA2, hc, hd]
  · rw [he] at h; simp at h

/-- A run only ever appends to the ledger. -/
lemma run_ledger_mono (ts : String) (files : List InputFile) (st : PipelineState) :
    ∃ ex, (run_pipeline ts files st).state.ledger = st.ledger ++ ex := by
  induction files generalizing st with
  | nil => exact ⟨[], by simp [run_pipeline]⟩
  | cons f fs ih =>
    rcases process_file_classify st ts f with ⟨_, he⟩ | ⟨_, _, he⟩ | ⟨t, e, _, _, _, he⟩ |
      ⟨t, rows, _, _, _, he⟩
    · obtain ⟨ex, hex⟩ := ih st
      exact ⟨ex, by simp [run_pipeline, he, hex]⟩
    · obtain ⟨ex, hex⟩ := ih st
      exact ⟨ex, by simp [run_pipeline, he, hex]⟩
    · exact ⟨[], by simp [run_pipeline, he]⟩
    · obtain ⟨ex, hex⟩ := ih ⟨st.ledger ++ [⟨basename f.path, ts⟩],
        st.outputs ++ write_output_files rows (splitext_base (basename f.path)) ts⟩
      refine ⟨⟨basename f.path, ts⟩ :: ex, ?_⟩
      simp [run_pipeline, he, hex]

/-- A file whose step changed nothing bad (non-fatal) is a no-op from
any later state whose ledger extends the ledger left by that step. -/
lemma process_second (st st2 : PipelineState) (ts ts2 : String) (f : InputFile)
    (h : (process_file st ts f).fatal = false)
    (hsub : ∀ x, x ∈ load_processed_files (process_file st ts f).state.ledger →
        x ∈ load_processed_files st2.ledger) :
    process_file st2 ts2 f = ⟨st2, [], false⟩ := by
  rcases process_file_classify st ts f with ⟨hA, he⟩ | ⟨_, hc, _⟩ | ⟨t, e, _, _, _, he⟩ |
    ⟨t, rows, _, _, _, he⟩
  · by_cases hA2 : file_check_module (load_processed_files st2.ledger) f = AdmissionResult.Accepted
    · exfalso
      apply hA
      rw [accepted_iff] at hA2 ⊢
      obtain ⟨hn2, hs2, hx2⟩ := hA2
      refine ⟨fun hmem => hn2 (hsub _ ?_), hs2, hx2⟩
      rw [he]
      exact hmem
    · simp [process_file, hA2]
  · exact process_content_none st2 ts2 f hc
  · rw [he] at h; simp at h
  · have hmem : basename f.path ∈ load_processed_files st2.ledger := by
      apply hsub
      rw [he]
      simp [load_processed_files]
    have hA2 : file_check_module (load_processed_files st2.ledger) f ≠ AdmissionResult.Accepted := by
      intro hacc
      rw [accepted_iff] at hacc
      exact hacc.1 hmem
    simp [process_file, hA2]

/-- Running the pipeline again from the final state of a previous run
over the same files reproduces that state exactly, with an empty event
trace and the same fatal flag. -/
lemma second_run_noop (ts1 ts2 : String) (files : List InputFile) (st0 : PipelineState) :
    run_pipeline ts2 files (run_pipeline ts1 files st0).state =
      ⟨(run_pipeline ts1 files st0).state, [], (run_pipeline ts1 files st0).fatal⟩ := by
  induction files generalizing st0 with
  | nil => rfl
  | cons f fs ih =>
    cases hfa : (process_file st0 ts1 f).fatal with
    | true =>
      have h1 : process_file st0 ts1 f = ⟨st0, [], true⟩ := fatal_indep st0 st0 ts1 ts1 f hfa rfl
      have h2 : process_file st0 ts2 f = ⟨st0, [], true⟩ := fatal_indep st0 st0 ts1 ts2 f hfa rfl
      simp [run_pipeline, h1, h2]
    | false =>
      obtain ⟨ex, hex⟩ := run_ledger_mono ts1 fs (process_file st0 ts1 f).state
      have hp2 : process_file (run_pipeline ts1 fs (process_file st0 ts1 f).state).state ts2 f =
          ⟨(run_pipeline ts1 fs (process_file st0 ts1 f).state).state, [], false⟩ := by
        apply process_second st0 _ ts1 ts2 f hfa
        intro x hx
        rw [load_processed_files] at hx ⊢
        rw [hex, List.map_append]
        exact List.mem_append_left _ hx
      have ih2 := ih (process_file st0 ts1 f).state
      simp [run_pipeline, hfa, hp2, ih2]

/-- C7 counterexample: after a first run over a directory holding one
zero-size candidate file, the second run skips that file as Empty, not
as AlreadyProcessed — refuting "every file is skipped as already
processed". -/
theorem second_run_cex :
    file_check_module
        (load_processed_files
          (run_pipeline "t1" [⟨"d/data_file_e.csv", 0, none⟩] ⟨[], []⟩).state.ledger)
        ⟨"d/data_file_e.csv", 0, none⟩ = AdmissionResult.SkipEmpty ∧
    AdmissionResult.SkipEmpty ≠ AdmissionResult.SkipAlreadyProcessed :=
  ⟨by decide, by decide⟩

/-- C7 amended: a second run over the same files from the ledger and
outputs produced by the first run creates zero new output artifacts
and zero new ledger entries — the state is returned unchanged and the
event trace is empty (files recorded by the first run are skipped as
already processed; files the first run skipped or failed to read are
skipped or fail again without effect). -/
theorem second_run_no_new_artifacts (ts1 ts2 : String) (files : List InputFile)
    (st0 : PipelineState) :
    run_pipeline ts2 files (run_pipeline ts1 files st0).state =
      ⟨(run_pipeline ts1 files st0).state, [], (run_pipeline ts1 files st0).fatal⟩ ∧
    (run_pipeline ts2 files (run_pipeline ts1 files st0).state).state.outputs =
      (run_pipeline ts1 files st0).state.outputs ∧
    (run_pipeline ts2 files (run_pipeline ts1 files st0).state).state.ledger =
      (run_pipeline ts1 files st0).state.ledger ∧
    (run_pipeline ts2 files (run_pipeline ts1 files st0).state).events = [] := by
  have h := second_run_noop ts1 ts2 files st0
  exact ⟨h, by rw [h], by rw [h], by rw [h]⟩

/-- C8 amended: an input table missing a required column makes
`data_quality_check_module` raise; because that call sits outside the
try/except in `main`, the exception aborts the entire batch: the file
is not recorded, nothing is written, and the remaining candidate files
are never examined. -/
theorem schema_error_aborts_batch (ts : String) (st : PipelineState) (f : InputFile)
    (rest : List InputFile) (t : Table)
    (hadm : file_check_module (load_processed_files st.ledger) f = AdmissionResult.Accepted)
    (hc : f.content = some t)
    (hmiss : required_columns.all (fun c => t.cols.contains c) = false) :
    run_pipeline ts (f :: rest) st = ⟨st, [], true⟩ := by
  have hcond : ¬ (required_columns.all (fun c => t.cols.contains c) = true) := by
    rw [hmiss]
    decide
  have hd : data_quality_check_module t = Except.error "KeyError: missing required column" := by
    unfold data_quality_check_module
    rw [if_neg hcond]
  have hp : process_file st ts f = ⟨st, [], true⟩ := by
    simp [process_file, hadm, hc, hd]
  simp [run_pipeline, hp]

/-- C8 witness: the abort evaluated on a concrete readable file whose
table has only a `name` column. -/
theorem schema_error_aborts_batch_witness :
    run_pipeline "t" [⟨"d/data_file_b.csv", 5, some ⟨["name"], []⟩⟩] ⟨[], []⟩ =
      ⟨⟨[], []⟩, [], true⟩ :=
  schema_error_aborts_batch "t" ⟨[], []⟩ ⟨"d/data_file_b.csv", 5, some ⟨["name"], []⟩⟩ []
    ⟨["name"], []⟩ (by decide) rfl (by decide)

/-- C8 counterexample: with a schema-error file first in the batch,
the run ends fatally with an empty ledger and no events — the healthy
file behind it is never processed, although alone it would have been
recorded; this refutes "aborts processing of that file only ... and
continues the batch". -/
theorem schema_error_cex :
    run_pipeline "t"
        [⟨"d/data_file_b.csv", 5, some ⟨["name"], []⟩⟩,
         ⟨"d/data_file_g.csv", 3, some ⟨required_columns,
           [⟨some "n", some "5551234567", some "l", none, none⟩]⟩⟩] ⟨[], []⟩ =
      ⟨⟨[], []⟩, [], true⟩ ∧
    (run_pipeline "t"
        [⟨"d/data_file_g.csv", 3, some ⟨required_columns,
          [⟨some "n", some "5551234567", some "l", none, none⟩]⟩⟩] ⟨[], []⟩).state.ledger =
      [⟨"data_file_g.csv", "t"⟩] :=
  ⟨by decide, by decide⟩

/-- `isSuffixOf` in terms of a prefix witness. -/
lemma suffix_exists {l₁ l₂ : List Char} (h : l₁.isSuffixOf l₂ = true) :
    ∃ t, l₂ = t ++ l₁ := by
  obtain ⟨t, ht⟩ := List.isSuffixOf_iff_suffix.mp h
  exact ⟨t, ht.symm⟩

/-- Evaluation of `takeWhile` over the reversed `.csv` suffix: none of
`v`, `s`, `c`, `.` is a slash. -/
lemma takeWhile_vsc (t : List Char) :
    (['v', 's', 'c', '.'] ++ t).takeWhile (fun c => c != '/') =
      'v' :: 's' :: 'c' :: '.' :: t.takeWhile (fun c => c != '/') := rfl

/-- Evaluation of `dropWhile` over the reversed `.csv` suffix: it stops
at the dot. -/
lemma dropWhile_vsc (t : List Char) :
    (['v', 's', 'c', '.'] ++ t).dropWhile (fun c => c != '.') = '.' :: t := rfl

/-- A path ending in `.csv` has a basename ending in `.csv` (the
suffix contains no slash). -/
lemma basename_suffix_csv (p : String) (h : ".csv".data.isSuffixOf p.data = true) :
    ".csv".data.isSuffixOf (basename p).data = true := by
  obtain ⟨t, ht⟩ := suffix_exists h
  rw [List.isSuffixOf_iff_suffix]
  have h1 : p.data.reverse = ['v', 's', 'c', '.'] ++ t.reverse := by
    rw [ht, List.reverse_append]
    rfl
  have hb : (basename p).data =
      (t.reverse.takeWhile (fun c => c != '/')).reverse ++ ".csv".data := by
    show (p.data.reverse.takeWhile (fun c => c != '/')).reverse = _
    rw [h1, takeWhile_vsc]
    show (['v', 's', 'c', '.'] ++ t.reverse.takeWhile (fun c => c != '/')).reverse = _
    rw [List.reverse_append]
    rfl
  rw [hb]
  exact ⟨_, rfl⟩

/-- A name ending in `.csv` splits as its `splitext` base followed by
`.csv`: the last dot is the one introducing the extension. -/
lemma splitext_base_csv (s : String) (h : ".csv".data.isSuffixOf s.data = true) :
    s.data = (splitext_base s).data ++ ".csv".data := by
  obtain ⟨t, ht⟩ := suffix_exists h
  have hc : s.data.contains '.' = true := by
    rw [ht]
    simp
  have h1 : s.data.reverse = ['v', 's', 'c', '.'] ++ t.reverse := by
    rw [ht, List.reverse_append]
    rfl
  have hx : (splitext_base s).data = t := by
    unfold splitext_base
    rw [if_pos hc]
    show ((s.data.reverse.dropWhile (fun c => c != '.')).drop 1).reverse = t
    rw [h1, dropWhile_vsc]
    show t.reverse.reverse = t
    exact List.reverse_reverse t
  rw [hx, ht]

/-- On names ending in `.csv` — which every admitted file's basename
is — `splitext_base` is injective, so distinct processed files can
never produce artifacts with the same embedded base. -/
lemma splitext_inj {s1 s2 : String} (h1 : ".csv".data.isSuffixOf s1.data = true)
    (h2 : ".csv".data.isSuffixOf s2.data = true)
    (he : splitext_base s1 = splitext_base s2) : s1 = s2 := by
  apply String.ext
  rw [splitext_base_csv s1 h1, splitext_base_csv s2 h2, he]

/-- Every artifact of `write_output_files` embeds the base it was
called with. -/
lemma write_output_base (rows : List AnnotatedRow) (base ts : String) :
    ∀ a ∈ write_output_files rows base ts, artifact_base a = base := by
  intro a ha
  simp only [write_output_files, List.mem_cons] at ha
  rcases ha with rfl | ha
  · rfl
  · split at ha
    · exact absurd ha (List.not_mem_nil a)
    · rw [List.mem_singleton] at ha
      rw [ha]
      rfl

/-- Once a file name ending in `.csv` is in the ledger, no later step
of the run writes any artifact embedding that file's base: a candidate
with the same base would have the same basename (`splitext_inj`) and
is skipped by the gate as already processed. -/
lemma run_writes_fresh (ts : String) (files : List InputFile) (st : PipelineState) (n : String)
    (hn : n ∈ load_processed_files st.ledger)
    (hcsv : ".csv".data.isSuffixOf n.data = true) :
    ∀ a : Artifact, Event.wrote a ∈ (run_pipeline ts files st).events →
      artifact_base a ≠ splitext_base n := by
  induction files generalizing st with
  | nil =>
    intro a ha
    simp [run_pipeline] at ha
  | cons f fs ih =>
    intro a ha
    rcases process_file_classify st ts f with ⟨_, he⟩ | ⟨_, _, he⟩ | ⟨t, e, _, _, _, he⟩ |
      ⟨t, rows, hA, _, _, he⟩
    · simp only [run_pipeline, he] at ha
      simp at ha
      exact ih st hn a ha
    · simp only [run_pipeline, he] at ha
      simp at ha
      exact ih st hn a ha
    · simp only [run_pipeline, he] at ha
      simp at ha
    · obtain ⟨hnotin, hsz, hsfx⟩ := (accepted_iff _ f).mp hA
      simp [run_pipeline, he] at ha
      rcases ha with ha | ha
      · have hbase : artifact_base a = splitext_base (basename f.path) :=
          write_output_base rows (splitext_base (basename f.path)) ts a ha
        intro hcontra
        rw [hbase] at hcontra
        have : basename f.path = n :=
          splitext_inj (basename_suffix_csv f.path hsfx) hcsv hcontra
        exact hnotin (this ▸ hn)
      · have hn2 : n ∈ load_processed_files (st.ledger ++ [⟨basename f.path, ts⟩]) := by
          rw [load_processed_files, List.map_append]
          rw [load_processed_files] at hn
          exact List.mem_append_left _ hn
        exact ih ⟨st.ledger ++ [⟨basename f.path, ts⟩],
          st.outputs ++ write_output_files rows (splitext_base (basename f.path)) ts⟩ hn2 a ha

/-- Every full run trace satisfies the strengthened ordering: at each
record event, the complete artifact set written for that file sits
immediately before it, and no artifact for that base is written after
it. -/
lemma run_records_after_all (ts : String) (files : List InputFile) (st : PipelineState) :
    RecordsAfterAllWrites (run_pipeline ts files st).events := by
  induction files generalizing st with
  | nil =>
    intro n pre suf h
    rw [show (run_pipeline ts [] st).events = [] from rfl] at h
    exact absurd (List.append_eq_nil.mp h.symm).2 (List.cons_ne_nil _ _)
  | cons f fs ih =>
    rcases process_file_classify st ts f with ⟨_, he⟩ | ⟨_, _, he⟩ | ⟨t, e, _, _, _, he⟩ |
      ⟨t, rows, hA, _, _, he⟩
    · simpa [run_pipeline, he] using ih st
    · simpa [run_pipeline, he] using ih st
    · intro n pre suf h
      simp [run_pipeline, he] at h
    · obtain ⟨hnotin, hsz, hsfx⟩ := (accepted_iff _ f).mp hA
      intro n pre suf h
      have hev : (run_pipeline ts (f :: fs) st).events =
          (write_output_files rows (splitext_base (basename f.path)) ts).map Event.wrote ++
            (Event.recorded (basename f.path) ::
              (run_pipeline ts fs ⟨st.ledger ++ [⟨basename f.path, ts⟩],
                st.outputs ++ write_output_files rows
                  (splitext_base (basename f.path)) ts⟩).events) := by
        simp [run_pipeline, he]
      rw [hev] at h
      rcases List.append_eq_append_iff.mp h with ⟨w, h1, h2⟩ | ⟨w, h1, h2⟩
      · cases w with
        | nil =>
          rw [List.nil_append] at h2
          injection h2 with hx hev2
          injection hx with hnm
          rw [List.append_nil] at h1
          constructor
          · refine ⟨[], ts, rows, ?_⟩
            rw [List.nil_append, ← hnm]
            exact h1
          · intro a hmem
            rw [← hev2] at hmem
            have hn2 : n ∈ load_processed_files (st.ledger ++ [⟨basename f.path, ts⟩]) := by
              rw [← hnm, load_processed_files, List.map_append]
              simp
            have hcsv2 : ".csv".data.isSuffixOf n.data = true := by
              rw [← hnm]
              exact basename_suffix_csv f.path hsfx
            exact run_writes_fresh ts fs ⟨st.ledger ++ [⟨basename f.path, ts⟩],
              st.outputs ++ write_output_files rows (splitext_base (basename f.path)) ts⟩
              n hn2 hcsv2 a hmem
        | cons y ys =>
          rw [List.cons_append] at h2
          injection h2 with hy hev2
          obtain ⟨⟨pre0, ts2, rows2, hw⟩, hsuf⟩ := ih ⟨st.ledger ++ [⟨basename f.path, ts⟩],
            st.outputs ++ write_output_files rows (splitext_base (basename f.path)) ts⟩
            n ys suf hev2
          constructor
          · refine ⟨(write_output_files rows (splitext_base (basename f.path)) ts).map
              Event.wrote ++ Event.recorded (basename f.path) :: pre0, ts2, rows2, ?_⟩
            rw [h1, ← hy, hw]
            simp [List.append_assoc]
          · exact hsuf
      · cases w with
        | nil =>
          rw [List.append_nil] at h1
          rw [List.nil_append] at h2
          injection h2 with hx hev2
          injection hx with hnm
          constructor
          · refine ⟨[], ts, rows, ?_⟩
            rw [List.nil_append, hnm]
            exact h1.symm
          · intro a hmem
            rw [hev2] at hmem
            have hn2 : n ∈ load_processed_files (st.ledger ++ [⟨basename f.path, ts⟩]) := by
              rw [hnm, load_processed_files, List.map_append]
              simp
            have hcsv2 : ".csv".data.isSuffixOf n.data = true := by
              rw [hnm]
              exact basename_suffix_csv f.path hsfx
            exact run_writes_fresh ts fs ⟨st.ledger ++ [⟨basename f.path, ts⟩],
              st.outputs ++ write_output_files rows (splitext_base (basename f.path)) ts⟩
              n hn2 hcsv2 a hmem
        | cons y ys =>
          rw [List.cons_append] at h2
          injection h2 with hy _
          have hymem : y ∈ (write_output_files rows (splitext_base (basename f.path)) ts).map
              Event.wrote := by
            rw [h1]
            exact List.mem_append_right pre (List.mem_cons_self y ys)
          obtain ⟨art, _, hart⟩ := List.mem_map.mp hymem
          rw [← hart] at hy
          exact absurd hy (by simp)

/-- C9: in every run trace, a file's ledger record is written only
after ALL of that file's output artifacts — the write events of the
complete `write_output_files` output for the file sit immediately
before its record event, and no artifact embedding that file's base is
written anywhere after the record (never the reverse); and a file
whose CSV read fails changes nothing — it is never recorded as
processed, so a future run retries it. -/
theorem record_after_writes :
    (∀ (ts : String) (files : List InputFile) (st : PipelineState),
        RecordsAfterAllWrites (run_pipeline ts files st).events) ∧
    (∀ (st : PipelineState) (ts : String) (f : InputFile),
        f.content = none → process_file st ts f = ⟨st, [], false⟩) :=
  ⟨run_records_after_all, process_content_none⟩

/-- C9 witness: the ordering discharged on the concrete trace of a run
processing two files — at the first file's record event, its full
artifact set immediately precedes and the second file's later write has
a different base — and the read-failure no-op discharged on a concrete
unreadable file. -/
theorem record_after_writes_witness :
    ((∃ (pre0 : List Event) (ts2 : String) (rows : List AnnotatedRow),
        [Event.wrote (Artifact.clean "data_file_g" "t"
            [⟨some "n", some "5551234567", some "l", none, none⟩])] =
          pre0 ++ (write_output_files rows (splitext_base "data_file_g.csv") ts2).map
            Event.wrote) ∧
      (∀ a : Artifact,
          Event.wrote a ∈ [Event.wrote (Artifact.clean "data_file_h" "t"
              [⟨some "n", some "5551234567", some "l", none, none⟩]),
            Event.recorded "data_file_h.csv"] →
          artifact_base a ≠ splitext_base "data_file_g.csv")) ∧
    process_file ⟨[], []⟩ "t" ⟨"d/data_file_r.csv", 3, none⟩ = ⟨⟨[], []⟩, [], false⟩ := by
  constructor
  · exact record_after_writes.1 "t"
      [⟨"d/data_file_g.csv", 3, some ⟨required_columns,
        [⟨some "n", some "5551234567", some "l", none, none⟩]⟩⟩,
       ⟨"d/data_file_h.csv", 3, some ⟨required_columns,
        [⟨some "n", some "5551234567", some "l", none, none⟩]⟩⟩]
      ⟨[], []⟩ "data_file_g.csv"
      [Event.wrote (Artifact.clean "data_file_g" "t"
        [⟨some "n", some "5551234567", some "l", none, none⟩])]
      [Event.wrote (Artifact.clean "data_file_h" "t"
        [⟨some "n", some "5551234567", some "l", none, none⟩]),
       Event.recorded "data_file_h.csv"]
      (by decide)
  · exact record_after_writes.2 ⟨[], []⟩ "t" ⟨"d/data_file_r.csv", 3, none⟩ rfl

/-- A run preserves uniqueness of ledger file names, because the gate
is consulted (against the current ledger) before every record. -/
lemma run_nodup (ts : String) (files : List InputFile) :
    ∀ st : PipelineState, (st.ledger.map LedgerRecord.file_name).Nodup →
      ((run_pipeline ts files st).state.ledger.map LedgerRecord.file_name).Nodup := by
  induction files with
  | nil =>
    intro st h
    simpa [run_pipeline] using h
  | cons f fs ih =>
    intro st h
    rcases process_file_classify st ts f with ⟨_, he⟩ | ⟨_, _, he⟩ | ⟨t, e, _, _, _, he⟩ |
      ⟨t, rows, hA, _, _, he⟩
    · simpa [run_pipeline, he] using ih st h
    · simpa [run_pipeline, he] using ih st h
    · simpa [run_pipeline, he] using h
    · have hnotin : basename f.path ∉ load_processed_files st.ledger := ((accepted_iff _ f).mp hA).1
      have hnew : ((st.ledger ++ ([⟨basename f.path, ts⟩] : List LedgerRecord)).map
          LedgerRecord.file_name).Nodup := by
        rw [List.map_append, List.nodup_append]
        refine ⟨h, by simp, ?_⟩
        intro x hx hx2
        simp only [List.map_cons, List.map_nil, List.mem_singleton] at hx2
        rw [load_processed_files] at hnotin
        exact hnotin (hx2 ▸ hx)
      have := ih (⟨st.ledger ++ [⟨basename f.path, ts⟩],
        st.outputs ++ write_output_files rows (splitext_base (basename f.path)) ts⟩ : PipelineState) hnew
      simpa [run_pipeline, he] using this

/-- C10: `save_processed_files` never deduplicates — called with a
file name already in the ledger it yields at least two records with
that name; the ledger's file-name uniqueness is nevertheless an
invariant of the pipeline, because `main` records a file only after it
passed `file_check_module`'s already-processed check. -/
theorem save_appends_no_dedup :
    (∀ (L : List LedgerRecord) (n ts : String), n ∈ load_processed_files L →
        2 ≤ ((save_processed_files L n ts).filter (fun lr => lr.file_name == n)).length) ∧
    (∀ (ts : String) (files : List InputFile) (st : PipelineState),
        (st.ledger.map LedgerRecord.file_name).Nodup →
        ((run_pipeline ts files st).state.ledger.map LedgerRecord.file_name).Nodup) := by
  constructor
  · intro L n ts hn
    rw [load_processed_files] at hn
    obtain ⟨lr, hlr, hname⟩ := List.mem_map.mp hn
    rw [save_processed_files, List.filter_append]
    have h2 : List.filter (fun (lr : LedgerRecord) => lr.file_name == n)
        ([⟨n, ts⟩] : List LedgerRecord) = [⟨n, ts⟩] := by simp
    rw [h2, List.length_append]
    have h1 : lr ∈ List.filter (fun r => r.file_name == n) L :=
      List.mem_filter.mpr ⟨hlr, by simp [hname]⟩
    have h3 : 0 < (List.filter (fun r => r.file_name == n) L).length :=
      List.length_pos.mpr (List.ne_nil_of_mem h1)
    simp only [List.length_singleton]
    omega
  · intro ts files st h
    exact run_nodup ts files st h

/-- C10 witness: the duplicate append evaluated on a one-record
ledger, and the uniqueness invariant evaluated on a run that records
one concrete file. -/
theorem save_appends_no_dedup_witness :
    2 ≤ ((save_processed_files [⟨"a.csv", "d1"⟩] "a.csv" "d2").filter
        (fun lr => lr.file_name == "a.csv")).length ∧
    ((run_pipeline "t" [⟨"d/data_file_g.csv", 3, some ⟨required_columns,
        [⟨some "n", some "5551234567", some "l", none, none⟩]⟩⟩]
      ⟨[], []⟩).state.ledger.map LedgerRecord.file_name).Nodup :=
  ⟨save_appends_no_dedup.1 [⟨"a.csv", "d1"⟩] "a.csv" "d2" (by decide),
   save_appends_no_dedup.2 "t" [⟨"d/data_file_g.csv", 3, some ⟨required_columns,
     [⟨some "n", some "5551234567", some "l", none, none⟩]⟩⟩] ⟨[], []⟩ (by decide)⟩

end Inmar
